import Mathlib

/- Shallow embedding of the bingbong client visualizer subsystem:
   the Position Manager (localStorage-backed position store), the Audio Engine,
   the Source Overlay (draggable markers) and the Visualizer (particle canvas).
   Sources: client/src/visualizer.ts (PositionManager, SourceOverlay, Visualizer)
   and client/src/audio-engine.ts (AudioEngine).

   Modelling conventions:
   - JS numbers are reals; machine timestamps (Date.now, getTime) are integers
     in milliseconds.
   - A JS Map with string keys is a function String -> Option alpha; Map.set is
     mapSet, Map.delete is mapDel, Map.get is application.
   - localStorage is a list of (key, value) entries; a value is
     Option RawRecord, where none stands for a string on which JSON.parse
     throws, and some r for a string that parses to the JS object r.
   - Keys under the position namespace are written StorageKey.pos sk, standing
     for the string "bingbong:position:" ++ sk; every other localStorage key
     is StorageKey.other s.  This models the startsWith test and the
     prefix-stripping replace in loadFromStorage structurally. -/

noncomputable section

namespace BingBong

/-- JS Map.set on a string-keyed map: overwrite the binding at one key. -/
def mapSet {α : Type} (m : String → Option α) (k : String) (v : α) :
    String → Option α :=
  fun k2 => if k2 = k then some v else m k2

/-- JS Map.delete on a string-keyed map. -/
def mapDel {α : Type} (m : String → Option α) (k : String) :
    String → Option α :=
  fun k2 => if k2 = k then none else m k2

/-- A normalized 2D position, both axes nominally in [0,1]. -/
structure Position where
  x : ℝ
  y : ℝ

namespace PositionManager

/-- A well-typed stored position record: savedAt is the millisecond timestamp
    that new Date(savedAt).getTime() recovers from the stored ISO string. -/
structure PosRecord where
  x : ℝ
  y : ℝ
  savedAt : ℤ

/-- The in-memory positions map of the PositionManager. -/
abbrev PosMap := String → Option PosRecord

/-- The empty positions map. -/
def emptyMap : PosMap := fun _ => none

/-- PositionManager.autoAssign: index 0 at center, golden-angle spiral for
    subsequent indices, each axis clamped to [0.1, 0.9]. -/
def autoAssign (index : ℕ) : Position :=
  if index = 0 then ⟨0.5, 0.5⟩
  else
    let angle : ℝ := (index : ℝ) * 137.5 * Real.pi / 180
    let ring : ℕ := Nat.ceil (Real.sqrt (index : ℝ))
    let radius : ℝ := 0.15 + (ring : ℝ) * 0.1
    ⟨max 0.1 (min 0.9 (0.5 + Real.cos angle * radius)),
     max 0.1 (min 0.9 (0.5 + Real.sin angle * radius))⟩

/-- PositionManager.savePosition: upsert the record with the current time. -/
def savePosition (m : PosMap) (sessionKey : String) (x y : ℝ) (now : ℤ) :
    PosMap :=
  mapSet m sessionKey ⟨x, y, now⟩

/-- PositionManager.getPosition as a state transformer (returned value and
    the positions map after the call).  The method body performs no writes,
    so the state component is the input map. -/
def getPositionS (m : PosMap) (sessionKey : String) (index : ℕ) :
    Position × PosMap :=
  match m sessionKey with
  | some saved => (⟨saved.x, saved.y⟩, m)
  | none => (autoAssign index, m)

/-- The value returned by PositionManager.getPosition. -/
def getPosition (m : PosMap) (sessionKey : String) (index : ℕ) : Position :=
  (getPositionS m sessionKey index).1

/-- The JS object a position value parses to.  Fields are optional because
    JSON.parse performs no schema validation: x or y is none when the field
    is missing or not numeric; savedAt is the result of
    new Date(savedAt).getTime() on the stored field, none standing for NaN
    (missing or uninterpretable date). -/
structure RawRecord where
  x : Option ℝ
  y : Option ℝ
  savedAt : Option ℤ

/-- A localStorage key: pos sk stands for "bingbong:position:" ++ sk,
    other s for any key outside the position namespace. -/
inductive StorageKey
  | pos (sessionKey : String)
  | other (name : String)
deriving DecidableEq

/-- The loaded (untyped) positions map. -/
abbrev RawMap := String → Option RawRecord

/-- The localStorage contents: entries in iteration order; value none means
    JSON.parse throws on the stored string. -/
abbrev Storage := List (StorageKey × Option RawRecord)

/-- One iteration of the PositionManager.loadFromStorage loop: a key in the
    position namespace whose value parses is set into the map (keyed by the
    session key the prefix strip recovers); a parse failure is caught and
    ignored; keys outside the namespace are skipped. -/
def loadStep (m : RawMap) (e : StorageKey × Option RawRecord) : RawMap :=
  match e with
  | (StorageKey.pos sk, some r) => mapSet m sk r
  | (StorageKey.pos _, none) => m
  | (StorageKey.other _, _) => m

/-- PositionManager.loadFromStorage: fold the loop over all storage entries. -/
def loadFromStorage (storage : Storage) : RawMap :=
  List.foldl loadStep (fun _ => none) storage

/-- The retention window: 30 days in milliseconds. -/
def thirtyDaysMs : ℤ := 30 * 24 * 60 * 60 * 1000

/-- Whether cleanupStale evicts a record: new Date(savedAt).getTime() is a
    real number strictly below now minus 30 days.  A NaN date (none) compares
    false in JS, so the record is kept. -/
def staleB (now : ℤ) (r : RawRecord) : Bool :=
  match r.savedAt with
  | some t => decide (t < now - thirtyDaysMs)
  | none => false

/-- The net effect of the cleanupStale loop on the positions map: every stale
    binding deleted, every other binding kept. -/
def cleanupMap (m : RawMap) (now : ℤ) : RawMap :=
  fun k =>
    match m k with
    | some r => if staleB now r then none else some r
    | none => none

/-- Whether a localStorage entry survives the cleanupStale loop: the loop
    calls localStorage.removeItem exactly on the namespaced keys of the map
    entries it evicts. -/
def keepEntry (m : RawMap) (now : ℤ) (e : StorageKey × Option RawRecord) :
    Bool :=
  match e.1 with
  | StorageKey.pos sk =>
      match m sk with
      | some r => !(staleB now r)
      | none => true
  | StorageKey.other _ => true

/-- PositionManager.cleanupStale: evict stale records from the map and delete
    their entries from the durable backing store. -/
def cleanupStale (m : RawMap) (storage : Storage) (now : ℤ) :
    RawMap × Storage :=
  (cleanupMap m now, storage.filter (keepEntry m now))

/-- The PositionManager constructor: loadFromStorage then cleanupStale,
    returning the in-memory map and the surviving durable storage. -/
def pmConstruct (storage : Storage) (now : ℤ) : RawMap × Storage :=
  cleanupStale (loadFromStorage storage) storage now

end PositionManager

/- ============================================
   Audio Engine (client/src/audio-engine.ts)
   ============================================
   The Web Audio node graph is abstracted to its observable control state:
   whether an AudioContext was acquired (ctx), the shared bus gain values,
   the per-session PannerNode settings, and the list of oscillator voices
   playSound has scheduled.  The convolver impulse-response buffer content
   (synthesized noise) carries no control state and is not modelled. -/

/-- The per-session 3D spatializer node, with the configuration constants
    createPannerForSession sets and its current 3D position. -/
structure PannerNode where
  panningModel : String
  distanceModel : String
  refDistance : ℝ
  maxDistance : ℝ
  rolloffFactor : ℝ
  coneInnerAngle : ℝ
  coneOuterAngle : ℝ
  posX : ℝ
  posY : ℝ
  posZ : ℝ

/-- One oscillator voice scheduled by playSound: its frequency, waveform,
    per-note chord delay, envelope peak gain, configured duration, and
    routing (session spatializer, or stereo-pan fallback with the pan it
    was given). -/
structure SoundNode where
  freq : ℝ
  wave : String
  delay : ℝ
  peakGain : ℝ
  duration : ℝ
  viaSessionPanner : Bool
  stereoPan : Option ℝ

/-- The SoundParams config playSound receives (note/notes/type/gain are
    optional in the TS type). -/
structure SoundParams where
  note : Option String := none
  notes : Option (List String) := none
  type : Option String := none
  gain : Option ℝ := none
  duration : ℝ

/-- JS short-circuit or on an optional number: undefined and 0 are falsy. -/
def jsOrR (v : Option ℝ) (d : ℝ) : ℝ :=
  match v with
  | some x => if x = 0 then d else x
  | none => d

/-- JS short-circuit or on an optional string: undefined and "" are falsy. -/
def jsOrS (v : Option String) (d : String) : String :=
  match v with
  | some s => if s = "" then d else s
  | none => d

/-- The NOTE_FREQ table from client/src/config.ts. -/
def NOTE_FREQ : List (String × ℝ) :=
  [("C3", 130.81), ("D3", 146.83), ("E3", 164.81), ("F3", 174.61),
   ("F#3", 185.0), ("G3", 196.0), ("G#3", 207.65), ("A3", 220.0),
   ("B3", 246.94), ("C4", 261.63), ("D4", 293.66), ("E4", 329.63),
   ("F4", 349.23), ("F#4", 369.99), ("G4", 392.0), ("G#4", 415.3),
   ("A4", 440.0), ("B4", 493.88), ("C5", 523.25), ("D5", 587.33),
   ("E5", 659.25), ("F5", 698.46), ("G5", 783.99), ("A5", 880.0),
   ("B5", 987.77)]

/-- NOTE_FREQ[note] with the JS-falsy 440 default from playSound. -/
def noteFreq (note : String) : ℝ :=
  jsOrR (NOTE_FREQ.lookup note) 440

/-- The AudioEngine control state.  ctx is whether an AudioContext was
    acquired; the gain fields are the current gain.value of the bus nodes
    (none while unbuilt); sessionPanners is the per-session spatializer map;
    voices is the list of oscillator voices created so far. -/
structure AudioEngine where
  ctx : Bool
  masterGainVal : Option ℝ
  reverbGainVal : Option ℝ
  dryGainVal : Option ℝ
  muted : Bool
  volume : ℝ
  reverbAmount : ℝ
  sessionPanners : String → Option PannerNode
  voices : List SoundNode

namespace AudioEngine

/-- The field-initializer state of a fresh AudioEngine. -/
def new : AudioEngine :=
  { ctx := false
    masterGainVal := none
    reverbGainVal := none
    dryGainVal := none
    muted := false
    volume := 0.7
    reverbAmount := 0.3
    sessionPanners := fun _ => none
    voices := [] }

/-- AudioEngine.init.  Early-returns when a context already exists.  When the
    audio device can be acquired it builds the shared bus (master gain at the
    current volume, reverb gain at reverbAmount, dry gain at
    1 - reverbAmount).  When the device cannot be acquired, the AudioContext
    construction throws before any assignment, so the exception propagates to
    the caller and the engine state is unchanged (ctx stays null). -/
def init (e : AudioEngine) (deviceOk : Bool) : Except Unit AudioEngine :=
  if e.ctx then Except.ok e
  else if deviceOk then
    Except.ok
      { e with
        ctx := true
        masterGainVal := some e.volume
        reverbGainVal := some e.reverbAmount
        dryGainVal := some (1 - e.reverbAmount) }
  else Except.error ()

/-- The engine its caller observes after awaiting init: the updated engine on
    success, or the unchanged engine plus a thrown-exception flag. -/
def initRun (e : AudioEngine) (deviceOk : Bool) : AudioEngine × Bool :=
  match init e deviceOk with
  | Except.ok e2 => (e2, false)
  | Except.error _ => (e, true)

/-- AudioEngine.toggleMute: flip the flag and, when the bus exists, set the
    master gain to 0 or back to the volume. -/
def toggleMute (e : AudioEngine) : AudioEngine × Bool :=
  let m := !e.muted
  let e2 := { e with muted := m }
  if e2.masterGainVal.isSome then
    ({ e2 with masterGainVal := some (if m then 0 else e2.volume) }, m)
  else (e2, m)

/-- AudioEngine.createPannerForSession: a no-op without a context or when a
    panner already exists for the key; otherwise allocates the configured
    spatializer (HRTF, inverse distance model, refDistance 1, maxDistance 10,
    rolloff 1.5, omnidirectional) at the default position. -/
def createPannerForSession (e : AudioEngine) (sessionKey : String) :
    AudioEngine :=
  if e.ctx = false then e
  else
    match e.sessionPanners sessionKey with
    | some _ => e
    | none =>
        { e with
          sessionPanners :=
            mapSet e.sessionPanners sessionKey
              { panningModel := "HRTF"
                distanceModel := "inverse"
                refDistance := 1
                maxDistance := 10
                rolloffFactor := 1.5
                coneInnerAngle := 360
                coneOuterAngle := 360
                posX := 0, posY := 0, posZ := 0 } }

/-- AudioEngine.updatePannerPosition: a no-op when the key has no panner or
    there is no context; otherwise maps normalized coordinates into 3D space
    via x = (normX - 0.5) * 10, z = (0.5 - normY) * 10, y fixed at 0. -/
def updatePannerPosition (e : AudioEngine) (sessionKey : String)
    (normX normY : ℝ) : AudioEngine :=
  match e.sessionPanners sessionKey, e.ctx with
  | some p, true =>
      { e with
        sessionPanners :=
          mapSet e.sessionPanners sessionKey
            { p with
              posX := (normX - 0.5) * 10
              posY := 0
              posZ := (0.5 - normY) * 10 } }
  | _, _ => e

/-- AudioEngine.removePannerForSession: disconnect and forget the panner;
    a no-op on an unknown key. -/
def removePannerForSession (e : AudioEngine) (sessionKey : String) :
    AudioEngine :=
  match e.sessionPanners sessionKey with
  | some _ => { e with sessionPanners := mapDel e.sessionPanners sessionKey }
  | none => e

/-- AudioEngine.playSound: a no-op without a context or while muted;
    otherwise schedules one oscillator voice per note (chord notes staggered
    by 50 ms), routed through the session panner when one exists, else
    through a fresh stereo panner at the given pan. -/
def playSound (e : AudioEngine) (config : SoundParams) (pan : ℝ)
    (sessionKey : Option String) : AudioEngine :=
  if e.ctx = false ∨ e.muted then e
  else
    let notes : List String :=
      match config.notes with
      | some ns => ns
      | none =>
          match config.note with
          | some n => if n = "" then [] else [n]
          | none => []
    let sessionPanner : Option PannerNode :=
      match sessionKey with
      | some k => e.sessionPanners k
      | none => none
    let newVoices : List SoundNode :=
      notes.enum.map fun p =>
        { freq := noteFreq p.2
          wave := jsOrS config.type "sine"
          delay := (p.1 : ℝ) * 0.05
          peakGain := jsOrR config.gain 0.2
          duration := config.duration
          viaSessionPanner := sessionPanner.isSome
          stereoPan := if sessionPanner.isSome then none else some pan }
    { e with voices := e.voices ++ newVoices }

end AudioEngine

/- ============================================
   Source Overlay (client/src/visualizer.ts)
   ============================================ -/

/-- The session fields the overlay consumes. -/
structure Session where
  machine_id : String
  session_id : String
  color : String

/-- The session key the client builds: machine_id ++ ":" ++ session_id. -/
def mkKey (s : Session) : String :=
  s.machine_id ++ ":" ++ s.session_id

/-- The per-marker state the overlay keeps (the DOM element is reduced to its
    disconnected class, the fade-out flag of a removal in progress). -/
structure SrcData where
  pos : Position
  removing : Bool
  session : Session

/-- The drag state recorded on pointer-down. -/
structure DragState where
  key : String
  pointerId : ℤ
  startPos : Position

/-- A DOMRect as returned by canvas.getBoundingClientRect(). -/
structure Rect where
  left : ℝ
  top : ℝ
  width : ℝ
  height : ℝ

/-- The SourceOverlay state.  pendingRemovals models the setTimeout callbacks
    removeSource has scheduled and that have not fired yet, with their fire
    times. -/
structure SourceOverlay where
  sources : String → Option SrcData
  selectedKey : Option String
  dragState : Option DragState
  sessionIndex : ℕ
  pm : PositionManager.PosMap
  engine : AudioEngine
  pendingRemovals : List (String × ℤ)

namespace SourceOverlay

/-- The normalized-and-clamped position SourceOverlay.onPointerMove computes
    from a pointer position: invert the radar-geometry mapping, then clamp
    both axes to [0.05, 0.95]. -/
def dragNormPos (rect : Rect) (clientX clientY : ℝ) : Position :=
  let size := min rect.width rect.height
  let maxRadius := size * 0.45
  let centerX := rect.width / 2
  let centerY := rect.height / 2
  let canvasX := clientX - rect.left
  let canvasY := clientY - rect.top
  let normX := 0.5 + (canvasX - centerX) / (2 * maxRadius)
  let normY := 0.5 + (canvasY - centerY) / (2 * maxRadius)
  ⟨max 0.05 (min 0.95 normX), max 0.05 (min 0.95 normY)⟩

/-- SourceOverlay.setElementPosition: the pixel coordinate at which the
    marker element is placed inside the radar, from the canvas bounding rect
    and the normalized position. -/
def setElementPosition (rect : Rect) (normX normY : ℝ) : ℝ × ℝ :=
  let size := min rect.width rect.height
  let maxRadius := size * 0.45
  let centerX := rect.width / 2
  let centerY := rect.height / 2
  (centerX + (normX - 0.5) * 2 * maxRadius,
   centerY + (normY - 0.5) * 2 * maxRadius)

/-- SourceOverlay.createSource: skipped when the key already has a marker
    (including one whose removal is pending); otherwise consumes the next
    session index, resolves the position from the position manager, creates
    the marker, then creates the audio panner and pushes the initial
    position. -/
def createSource (o : SourceOverlay) (session : Session) : SourceOverlay :=
  let key := mkKey session
  match o.sources key with
  | some _ => o
  | none =>
      let index := o.sessionIndex
      let pos := PositionManager.getPosition o.pm key index
      let e1 := AudioEngine.createPannerForSession o.engine key
      let e2 := AudioEngine.updatePannerPosition e1 key pos.x pos.y
      { o with
        sources := mapSet o.sources key ⟨pos, false, session⟩
        sessionIndex := o.sessionIndex + 1
        engine := e2 }

/-- SourceOverlay.onPointerMove: while a drag is active, clamp the pointer
    into normalized bounds, update the dragged marker position and push it to
    the audio engine immediately. -/
def onPointerMove (o : SourceOverlay) (rect : Rect) (clientX clientY : ℝ) :
    SourceOverlay :=
  match o.dragState with
  | none => o
  | some d =>
      let p := dragNormPos rect clientX clientY
      match o.sources d.key with
      | some src =>
          { o with
            sources := mapSet o.sources d.key { src with pos := p }
            engine := AudioEngine.updatePannerPosition o.engine d.key p.x p.y }
      | none => o

/-- SourceOverlay.onPointerUp: end the drag and persist the marker position
    to the position manager. -/
def onPointerUp (o : SourceOverlay) (now : ℤ) : SourceOverlay :=
  match o.dragState with
  | none => o
  | some d =>
      match o.sources d.key with
      | some src =>
          { o with
            pm := PositionManager.savePosition o.pm d.key src.pos.x
                    src.pos.y now
            dragState := none }
      | none => { o with dragState := none }

/-- SourceOverlay.removeSource: mark the marker disconnected (fade-out),
    schedule the detach callback 1000 ms ahead, and deselect the marker when
    it was selected.  The marker stays in the sources map until the callback
    fires. -/
def removeSource (o : SourceOverlay) (key : String) (now : ℤ) :
    SourceOverlay :=
  match o.sources key with
  | none => o
  | some src =>
      { o with
        sources := mapSet o.sources key { src with removing := true }
        pendingRemovals := o.pendingRemovals ++ [(key, now + 1000)]
        selectedKey :=
          if o.selectedKey = some key then none else o.selectedKey }

/-- The setTimeout callback scheduled by removeSource: detach the marker
    element, delete the key from the sources map, and destroy the audio
    voice.  The code never cancels this timeout. -/
def fireRemoval (o : SourceOverlay) (key : String) : SourceOverlay :=
  { o with
    sources := mapDel o.sources key
    engine := AudioEngine.removePannerForSession o.engine key
    pendingRemovals := o.pendingRemovals.eraseP (fun pr => pr.1 == key) }

end SourceOverlay

/- ============================================
   Visualizer (client/src/visualizer.ts)
   ============================================ -/

/-- A transient visual particle. -/
structure Particle where
  x : ℝ
  y : ℝ
  vx : ℝ
  vy : ℝ
  size : ℝ
  color : String
  alpha : ℝ
  lifetime : ℤ
  maxLifetime : ℤ

/-- The radar grid geometry shared by the canvas and the overlay. -/
structure RadarGeometry where
  size : ℝ
  centerX : ℝ
  centerY : ℝ
  maxRadius : ℝ

/-- The Visualizer animation state.  animationId is whether a frame request
    is outstanding; radarGridDraws counts drawRadarGrid executions (the
    static radar layer; drawStatic paints exactly this layer). -/
structure Visualizer where
  particles : List Particle
  isAnimating : Bool
  animationId : Bool
  radarGridDraws : ℕ

namespace Visualizer

/-- Visualizer.getRadarGeometry on the cached canvas dimensions. -/
def getRadarGeometry (width height : ℝ) : RadarGeometry :=
  let size := min width height
  let centerX := width / 2
  let centerY := height / 2
  let maxRadius := size * 0.45
  ⟨size, centerX, centerY, maxRadius⟩

/-- The particle spawn coordinate Visualizer.addEvent computes for a session
    whose marker sits at a normalized position: the same normalized-to-pixel
    radar transform. -/
def particleSpawnPos (width height : ℝ) (pos : Position) : ℝ × ℝ :=
  let g := getRadarGeometry width height
  (g.centerX + (pos.x - 0.5) * 2 * g.maxRadius,
   g.centerY + (pos.y - 0.5) * 2 * g.maxRadius)

/-- Visualizer.drawStatic: repaint the static radar layer. -/
def drawStatic (s : Visualizer) : Visualizer :=
  { s with radarGridDraws := s.radarGridDraws + 1 }

/-- Visualizer.stopAnimation: clear the animating flag, cancel the
    outstanding frame request, and draw the final static state. -/
def stopAnimation (s : Visualizer) : Visualizer :=
  drawStatic { s with isAnimating := false, animationId := false }

/-- One pass of the particle update-and-filter inside Visualizer.animate:
    decrement the lifetime first; a particle at or below zero is dropped;
    a survivor fades (alpha = lifetime / maxLifetime), integrates velocity
    and shrinks by the 0.98 factor. -/
def stepParticles (ps : List Particle) : List Particle :=
  ps.filterMap fun p =>
    let lt : ℤ := p.lifetime - 1
    if lt ≤ 0 then none
    else
      some
        { p with
          lifetime := lt
          alpha := (lt : ℝ) / (p.maxLifetime : ℝ)
          x := p.x + p.vx
          y := p.y + p.vy
          size := p.size * 0.98 }

/-- Visualizer.animate, one tick: nothing happens when the loop is stopped;
    otherwise the radar grid is redrawn under the particles, the particles
    are stepped and filtered, and either the loop stops itself (no surviving
    particle: stopAnimation performs the final static-only draw) or the next
    frame is requested. -/
def animate (s : Visualizer) : Visualizer :=
  if s.isAnimating = false then s
  else
    let s1 := { s with radarGridDraws := s.radarGridDraws + 1 }
    let ps := stepParticles s.particles
    if ps.isEmpty then stopAnimation { s1 with particles := ps }
    else { s1 with particles := ps, animationId := true }

end Visualizer

/- ============================================
   Concrete instances used by witnesses
   ============================================ -/

/-- A configured spatializer as createPannerForSession builds it. -/
def panW : PannerNode :=
  ⟨"HRTF", "inverse", 1, 10, 1.5, 360, 360, 0, 0, 0⟩

/-- An engine whose init succeeded and that holds a panner for "M:S". -/
def engineW : AudioEngine :=
  { ctx := true
    masterGainVal := some 0.7
    reverbGainVal := some 0.3
    dryGainVal := some 0.7
    muted := false
    volume := 0.7
    reverbAmount := 0.3
    sessionPanners := mapSet (fun _ => none) "M:S" panW
    voices := [] }

/-- The engineW state with the mute flag set. -/
def engineM : AudioEngine :=
  { engineW with muted := true }

/-- A session on machine "M" with session id "S". -/
def sessW : Session := ⟨"M", "S", "#4ECDC4"⟩

/-- An active marker for sessW at the center. -/
def srcW : SrcData := ⟨⟨0.5, 0.5⟩, false, sessW⟩

/-- A drag in progress on the "M:S" marker. -/
def dW : DragState := ⟨"M:S", 1, ⟨0.5, 0.5⟩⟩

/-- An overlay with one marker being dragged. -/
def oW : SourceOverlay :=
  { sources := mapSet (fun _ => none) "M:S" srcW
    selectedKey := some "M:S"
    dragState := some dW
    sessionIndex := 1
    pm := PositionManager.emptyMap
    engine := engineW
    pendingRemovals := [] }

/-- A 100 x 100 canvas rect at the origin. -/
def rectW : Rect := ⟨0, 0, 100, 100⟩

/-- An overlay with one placed marker and no drag. -/
def o8 : SourceOverlay :=
  { sources := mapSet (fun _ => none) "M:S" srcW
    selectedKey := none
    dragState := none
    sessionIndex := 1
    pm := PositionManager.emptyMap
    engine := engineW
    pendingRemovals := [] }

/-- An overlay with no marker for "M:S" but a saved position for it. -/
def o8b : SourceOverlay :=
  { sources := fun _ => none
    selectedKey := none
    dragState := none
    sessionIndex := 3
    pm := mapSet PositionManager.emptyMap "M:S" ⟨0.2, 0.2, 50⟩
    engine := engineW
    pendingRemovals := [] }

/-- A well-formed record saved 31 days before time 0. -/
def recA : PositionManager.RawRecord :=
  ⟨some 0.3, some 0.7, some (-2678400000)⟩

/-- A well-formed record saved 29 days before time 0. -/
def recB : PositionManager.RawRecord :=
  ⟨some 0.4, some 0.6, some (-2505600000)⟩

/-- A storage holding the 31-day-old and the 29-day-old record. -/
def storW : PositionManager.Storage :=
  [(PositionManager.StorageKey.pos "A", some recA),
   (PositionManager.StorageKey.pos "B", some recB)]

/-- A parseable JSON value conforming to nothing: every field missing. -/
def badRec : PositionManager.RawRecord := ⟨none, none, none⟩

/-- A storage holding a single parseable but non-conforming value. -/
def storBad : PositionManager.Storage :=
  [(PositionManager.StorageKey.pos "A", some badRec)]

/-- A well-formed record saved at time 10. -/
def recD : PositionManager.RawRecord := ⟨some 0.1, some 0.2, some 10⟩

/-- A storage holding one unparseable value and one parseable record. -/
def storLoad : PositionManager.Storage :=
  [(PositionManager.StorageKey.pos "C", none),
   (PositionManager.StorageKey.pos "D", some recD)]

/-- The SessionStart sound config from client/src/config.ts. -/
def cfgW : SoundParams :=
  { note := some "C4", type := some "sine", gain := some 0.4, duration := 0.4 }

/-- A particle one tick from expiry. -/
def partW : Particle := ⟨10, 10, 1, -1, 20, "#4ECDC4", 1, 1, 60⟩

/-- A running visualizer holding only partW. -/
def vizW : Visualizer := ⟨[partW], true, true, 0⟩

/- ============================================
   Helper lemmas
   ============================================ -/

theorem mapSet_self {α : Type} (m : String → Option α) (k : String) (v : α) :
    mapSet m k v k = some v := by
  simp [mapSet]

theorem mapSet_ne {α : Type} (m : String → Option α) (k k2 : String) (v : α)
    (h : k2 ≠ k) : mapSet m k v k2 = m k2 := by
  simp [mapSet, h]

theorem updatePanner_sets (e : AudioEngine) (k : String) (nx ny : ℝ)
    (pan : PannerNode) (hctx : e.ctx = true)
    (hpan : e.sessionPanners k = some pan) :
    (AudioEngine.updatePannerPosition e k nx ny).sessionPanners k =
      some { pan with
             posX := (nx - 0.5) * 10
             posY := 0
             posZ := (0.5 - ny) * 10 } := by
  rw [AudioEngine.updatePannerPosition]
  simp only [hpan, hctx]
  exact mapSet_self _ _ _

/- ============================================
   C1: auto-placement
   ============================================ -/

/-- C1: autoAssign is a deterministic pure function of the index: it returns
    (0.5, 0.5) exactly at index 0; for n >= 1 it returns the golden-angle
    point with ring = ceil(sqrt(n)) and radius = 0.15 + ring * 0.1, each axis
    clamped to [0.1, 0.9]; hence for n >= 1 both coordinates lie within
    [0.1, 0.9], and equal inputs give equal outputs. -/
theorem autoAssign_correct :
    PositionManager.autoAssign 0 = ⟨0.5, 0.5⟩ ∧
    (∀ n : ℕ, PositionManager.autoAssign n = PositionManager.autoAssign n) ∧
    ∀ n : ℕ, 1 ≤ n →
      (PositionManager.autoAssign n =
        ⟨max 0.1 (min 0.9 (0.5 + Real.cos ((n : ℝ) * 137.5 * Real.pi / 180) *
            (0.15 + (Nat.ceil (Real.sqrt (n : ℝ)) : ℝ) * 0.1))),
         max 0.1 (min 0.9 (0.5 + Real.sin ((n : ℝ) * 137.5 * Real.pi / 180) *
            (0.15 + (Nat.ceil (Real.sqrt (n : ℝ)) : ℝ) * 0.1)))⟩) ∧
      0.1 ≤ (PositionManager.autoAssign n).x ∧
      (PositionManager.autoAssign n).x ≤ 0.9 ∧
      0.1 ≤ (PositionManager.autoAssign n).y ∧
      (PositionManager.autoAssign n).y ≤ 0.9 := by
  refine ⟨by simp [PositionManager.autoAssign], fun n => rfl, fun n hn => ?_⟩
  have hne : n ≠ 0 := by omega
  have hdef : PositionManager.autoAssign n =
      ⟨max 0.1 (min 0.9 (0.5 + Real.cos ((n : ℝ) * 137.5 * Real.pi / 180) *
          (0.15 + (Nat.ceil (Real.sqrt (n : ℝ)) : ℝ) * 0.1))),
       max 0.1 (min 0.9 (0.5 + Real.sin ((n : ℝ) * 137.5 * Real.pi / 180) *
          (0.15 + (Nat.ceil (Real.sqrt (n : ℝ)) : ℝ) * 0.1)))⟩ := by
    simp only [PositionManager.autoAssign, if_neg hne]
  refine ⟨hdef, ?_, ?_, ?_, ?_⟩ <;> rw [hdef]
  · exact le_max_left _ _
  · exact max_le (by norm_num) (min_le_left _ _)
  · exact le_max_left _ _
  · exact max_le (by norm_num) (min_le_left _ _)

/-- Witness for C1 at index 2. -/
theorem autoAssign_correct_witness :
    (1 : ℕ) ≤ 2 ∧
    (0.1 ≤ (PositionManager.autoAssign 2).x ∧
     (PositionManager.autoAssign 2).x ≤ 0.9 ∧
     0.1 ≤ (PositionManager.autoAssign 2).y ∧
     (PositionManager.autoAssign 2).y ≤ 0.9) :=
  ⟨by norm_num, (autoAssign_correct.2.2 2 (by norm_num)).2⟩

/- ============================================
   C2: position store round trip
   ============================================ -/

/-- C2: save then get returns exactly the saved coordinates; for a key with
    no saved record, get returns the auto-assigned position for the fallback
    index; and get never changes the stored record set. -/
theorem save_get_roundtrip :
    ∀ (m : PositionManager.PosMap) (k : String) (x y : ℝ) (now : ℤ) (i : ℕ),
      PositionManager.getPosition
          (PositionManager.savePosition m k x y now) k i = ⟨x, y⟩ ∧
      (∀ (k2 : String) (i2 : ℕ), m k2 = none →
        PositionManager.getPosition m k2 i2 = PositionManager.autoAssign i2) ∧
      (∀ (m2 : PositionManager.PosMap) (k2 : String) (i2 : ℕ),
        (PositionManager.getPositionS m2 k2 i2).2 = m2) := by
  intro m k x y now i
  refine ⟨?_, ?_, ?_⟩
  · simp [PositionManager.getPosition, PositionManager.getPositionS,
      PositionManager.savePosition, mapSet_self]
  · intro k2 i2 h
    simp [PositionManager.getPosition, PositionManager.getPositionS, h]
  · intro m2 k2 i2
    cases h : m2 k2 <;>
      simp [PositionManager.getPositionS, h]

/-- Witness for C2: save (0.3, 0.7) under "A" in the empty store, read it
    back, and read an absent key "B". -/
theorem save_get_roundtrip_witness :
    PositionManager.getPosition
        (PositionManager.savePosition PositionManager.emptyMap "A" 0.3 0.7 5)
        "A" 2 = ⟨0.3, 0.7⟩ ∧
    PositionManager.emptyMap "B" = none ∧
    PositionManager.getPosition PositionManager.emptyMap "B" 0 =
      PositionManager.autoAssign 0 ∧
    (PositionManager.getPositionS PositionManager.emptyMap "B" 0).2 =
      PositionManager.emptyMap :=
  ⟨(save_get_roundtrip PositionManager.emptyMap "A" 0.3 0.7 5 2).1, rfl,
   (save_get_roundtrip PositionManager.emptyMap "A" 0.3 0.7 5 2).2.1 "B" 0 rfl,
   (save_get_roundtrip PositionManager.emptyMap "A" 0.3 0.7 5 2).2.2
     PositionManager.emptyMap "B" 0⟩

/- ============================================
   C9: pixel mapping agreement
   ============================================ -/

/-- C9: for every normalized position and canvas dimensions, the overlay
    marker pixel position and the visualizer particle spawn position agree,
    and both equal center + (coord - 0.5) * 2 * (0.45 * min(width, height))
    per axis: pixel space is one pure stateless transform of the normalized
    space. -/
theorem pixel_mapping_agreement :
    ∀ (l t w h nx ny : ℝ),
      SourceOverlay.setElementPosition ⟨l, t, w, h⟩ nx ny =
        Visualizer.particleSpawnPos w h ⟨nx, ny⟩ ∧
      SourceOverlay.setElementPosition ⟨l, t, w, h⟩ nx ny =
        (w / 2 + (nx - 0.5) * 2 * (0.45 * min w h),
         h / 2 + (ny - 0.5) * 2 * (0.45 * min w h)) := by
  intro l t w h nx ny
  constructor
  · simp [SourceOverlay.setElementPosition, Visualizer.particleSpawnPos,
      Visualizer.getRadarGeometry]
  · simp only [SourceOverlay.setElementPosition, Prod.mk.injEq]
    constructor <;> ring

/- ============================================
   C10: muted playSound is a discarding no-op
   ============================================ -/

/-- C10: whenever the engine is muted, playSound returns immediately for
    every sound config, pan and session key: it creates no nodes and leaves
    the whole engine state unchanged, so sounds played while muted are
    discarded entirely. -/
theorem muted_playSound_noop :
    ∀ (e : AudioEngine) (config : SoundParams) (pan : ℝ)
      (sessionKey : Option String),
      e.muted = true →
      AudioEngine.playSound e config pan sessionKey = e := by
  intro e config pan sessionKey h
  simp [AudioEngine.playSound, h]

/-- Witness for C10: a muted engine with a live context and a panner drops a
    SessionStart sound aimed at its session. -/
theorem muted_playSound_noop_witness :
    engineM.muted = true ∧
    AudioEngine.playSound engineM cfgW 0 (some "M:S") = engineM :=
  ⟨rfl, muted_playSound_noop engineM cfgW 0 (some "M:S") rfl⟩

/- ============================================
   C6: audio failure degradation (corrected)
   ============================================ -/

/-- C6 counterexample: with no acquired context and an unavailable device,
    init propagates the failure to its caller (the thrown flag of initRun is
    set), contradicting that init fails silently without throwing outward. -/
theorem init_throws_counterexample :
    (AudioEngine.initRun AudioEngine.new false).2 = true := by
  simp [AudioEngine.initRun, AudioEngine.init, AudioEngine.new]

/-- C6 amended: when the device cannot be acquired, init raises to its
    caller, which absorbs it and keeps the engine unchanged in its no-audio
    state (no context); thereafter playSound, createPannerForSession and
    updatePannerPosition are no-ops that return normally and change no
    state. -/
theorem no_audio_degradation :
    ∀ (e : AudioEngine) (config : SoundParams) (pan : ℝ)
      (sessionKey : Option String) (k : String) (nx ny : ℝ),
      e.ctx = false →
      AudioEngine.initRun e false = (e, true) ∧
      AudioEngine.playSound e config pan sessionKey = e ∧
      AudioEngine.createPannerForSession e k = e ∧
      AudioEngine.updatePannerPosition e k nx ny = e := by
  intro e config pan sessionKey k nx ny h
  refine ⟨?_, ?_, ?_, ?_⟩
  · simp [AudioEngine.initRun, AudioEngine.init, h]
  · simp [AudioEngine.playSound, h]
  · simp [AudioEngine.createPannerForSession, h]
  · rw [AudioEngine.updatePannerPosition]
    cases hp : e.sessionPanners k <;> simp [h]

/-- Witness for C6 amended: the fresh engine after a failed init. -/
theorem no_audio_degradation_witness :
    AudioEngine.new.ctx = false ∧
    (AudioEngine.initRun AudioEngine.new false = (AudioEngine.new, true) ∧
     AudioEngine.playSound AudioEngine.new cfgW 0 (some "M:S") =
       AudioEngine.new ∧
     AudioEngine.createPannerForSession AudioEngine.new "M:S" =
       AudioEngine.new ∧
     AudioEngine.updatePannerPosition AudioEngine.new "M:S" 0.3 0.4 =
       AudioEngine.new) :=
  ⟨rfl, no_audio_degradation AudioEngine.new cfgW 0 (some "M:S") "M:S" 0.3 0.4
    rfl⟩

/- ============================================
   C3: drag clamp invariant
   ============================================ -/

/-- C3: for every pointer-move input during a drag, the marker's resulting
    normalized position is clamped into [0.05, 0.95] on both axes, the same
    clamped position is pushed to the audio engine immediately (whenever the
    engine holds a context and a panner for the key), and the position a
    drag end persists to the position store satisfies the same bounds. -/
theorem drag_clamp_invariant :
    ∀ (o : SourceOverlay) (rect : Rect) (cx cy : ℝ) (d : DragState)
      (src : SrcData) (now : ℤ),
      o.dragState = some d →
      o.sources d.key = some src →
      (0.05 ≤ (SourceOverlay.dragNormPos rect cx cy).x ∧
       (SourceOverlay.dragNormPos rect cx cy).x ≤ 0.95 ∧
       0.05 ≤ (SourceOverlay.dragNormPos rect cx cy).y ∧
       (SourceOverlay.dragNormPos rect cx cy).y ≤ 0.95) ∧
      (SourceOverlay.onPointerMove o rect cx cy).sources d.key =
        some { src with pos := SourceOverlay.dragNormPos rect cx cy } ∧
      (∀ pan : PannerNode, o.engine.ctx = true →
        o.engine.sessionPanners d.key = some pan →
        (SourceOverlay.onPointerMove o rect cx cy).engine.sessionPanners
            d.key =
          some { pan with
                 posX := ((SourceOverlay.dragNormPos rect cx cy).x - 0.5) * 10
                 posY := 0
                 posZ :=
                   (0.5 - (SourceOverlay.dragNormPos rect cx cy).y) * 10 }) ∧
      (SourceOverlay.onPointerUp
          (SourceOverlay.onPointerMove o rect cx cy) now).pm d.key =
        some ⟨(SourceOverlay.dragNormPos rect cx cy).x,
              (SourceOverlay.dragNormPos rect cx cy).y, now⟩ := by
  intro o rect cx cy d src now hdrag hsrc
  have hmove : SourceOverlay.onPointerMove o rect cx cy =
      { o with
        sources := mapSet o.sources d.key
          { src with pos := SourceOverlay.dragNormPos rect cx cy }
        engine := AudioEngine.updatePannerPosition o.engine d.key
          (SourceOverlay.dragNormPos rect cx cy).x
          (SourceOverlay.dragNormPos rect cx cy).y } := by
    rw [SourceOverlay.onPointerMove, hdrag]
    simp only [hsrc]
  have hds : (SourceOverlay.onPointerMove o rect cx cy).dragState = some d := by
    rw [hmove]; exact hdrag
  have hsrc2 : (SourceOverlay.onPointerMove o rect cx cy).sources d.key =
      some { src with pos := SourceOverlay.dragNormPos rect cx cy } := by
    rw [hmove]; exact mapSet_self _ _ _
  refine ⟨⟨le_max_left _ _, max_le (by norm_num) (min_le_left _ _),
    le_max_left _ _, max_le (by norm_num) (min_le_left _ _)⟩, hsrc2, ?_, ?_⟩
  · intro pan hctx hpan
    rw [hmove]
    exact updatePanner_sets o.engine d.key _ _ pan hctx hpan
  · simp only [SourceOverlay.onPointerUp, hds, hsrc2,
      PositionManager.savePosition]
    exact mapSet_self _ _ _

/-- Witness for C3: a 100 x 100 radar and a pointer far outside it; the
    clamped position stays in bounds and is what the drag end persists. -/
theorem drag_clamp_invariant_witness :
    (0.05 ≤ (SourceOverlay.dragNormPos rectW 1000 (-50)).x ∧
     (SourceOverlay.dragNormPos rectW 1000 (-50)).x ≤ 0.95 ∧
     0.05 ≤ (SourceOverlay.dragNormPos rectW 1000 (-50)).y ∧
     (SourceOverlay.dragNormPos rectW 1000 (-50)).y ≤ 0.95) ∧
    (SourceOverlay.onPointerUp
        (SourceOverlay.onPointerMove oW rectW 1000 (-50)) 7).pm "M:S" =
      some ⟨(SourceOverlay.dragNormPos rectW 1000 (-50)).x,
            (SourceOverlay.dragNormPos rectW 1000 (-50)).y, 7⟩ := by
  have h := drag_clamp_invariant oW rectW 1000 (-50) dW srcW 7 rfl
    (by simp [oW, dW, mapSet])
  exact ⟨h.1, h.2.2.2⟩

/- ============================================
   C7: particle termination
   ============================================ -/

/-- C7: on every tick of a running animation, every surviving particle's
    lifetime is the predecessor's lifetime minus one and is strictly
    positive (a particle reaching lifetime 0 is removed on that tick); when
    no particle survives the tick, the loop stops itself (animating flag and
    frame request cleared) and performs one final static draw on top of the
    tick's own grid redraw; otherwise the next frame is requested. -/
theorem particle_termination :
    ∀ s : Visualizer,
      s.isAnimating = true →
      (∀ q ∈ Visualizer.stepParticles s.particles,
        0 < q.lifetime ∧ ∃ p ∈ s.particles, q.lifetime = p.lifetime - 1) ∧
      (Visualizer.stepParticles s.particles = [] →
        (Visualizer.animate s).isAnimating = false ∧
        (Visualizer.animate s).animationId = false ∧
        (Visualizer.animate s).radarGridDraws = s.radarGridDraws + 2) ∧
      (Visualizer.stepParticles s.particles ≠ [] →
        (Visualizer.animate s).particles =
          Visualizer.stepParticles s.particles ∧
        (Visualizer.animate s).animationId = true) := by
  intro s hanim
  refine ⟨?_, ?_, ?_⟩
  · intro q hq
    rw [Visualizer.stepParticles, List.mem_filterMap] at hq
    obtain ⟨p, hp, hpq⟩ := hq
    by_cases hlt : p.lifetime - 1 ≤ 0
    · simp only [hlt, if_pos] at hpq
      exact absurd hpq (by simp)
    · simp only [hlt, if_neg, if_false] at hpq
      injection hpq with h
      subst h
      constructor
      · show (0 : ℤ) < p.lifetime - 1
        omega
      · exact ⟨p, hp, rfl⟩
  · intro hempty
    simp [Visualizer.animate, hanim, hempty, Visualizer.stopAnimation,
      Visualizer.drawStatic]
  · intro hne
    simp [Visualizer.animate, hanim, List.isEmpty_iff, hne]

/-- Witness for C7: a running visualizer whose only particle has lifetime 1;
    the tick removes it and the loop stops. -/
theorem particle_termination_witness :
    vizW.isAnimating = true ∧
    Visualizer.stepParticles vizW.particles = [] ∧
    (Visualizer.animate vizW).isAnimating = false ∧
    (Visualizer.animate vizW).animationId = false ∧
    (Visualizer.animate vizW).radarGridDraws = vizW.radarGridDraws + 2 := by
  have hstep : Visualizer.stepParticles vizW.particles = [] := by
    simp [Visualizer.stepParticles, vizW, partW]
  have h := (particle_termination vizW rfl).2.1 hstep
  exact ⟨rfl, hstep, h.1, h.2.1, h.2.2⟩

/- ============================================
   C4 and C5: load path of the store constructor
   ============================================ -/

open PositionManager

theorem foldl_loadStep_of_none (storage : Storage) :
    ∀ (m : RawMap) (k : String),
      (∀ e ∈ storage, e.1 = StorageKey.pos k → e.2 = none) →
      List.foldl loadStep m storage k = m k := by
  induction storage with
  | nil => intro m k _; rfl
  | cons e es ih =>
    intro m k h
    have htail : ∀ e2 ∈ es, e2.1 = StorageKey.pos k → e2.2 = none :=
      fun e2 he2 => h e2 (List.mem_cons_of_mem _ he2)
    rw [List.foldl_cons, ih (loadStep m e) k htail]
    rcases e with ⟨ek, ev⟩
    cases ek with
    | pos sk =>
      cases ev with
      | none => rfl
      | some r =>
        have hne : StorageKey.pos sk ≠ StorageKey.pos k := by
          intro hek
          have h0 := h ⟨StorageKey.pos sk, some r⟩ (List.mem_cons_self _ _) hek
          simp at h0
        have hk : k ≠ sk := fun hkk => hne (by rw [hkk])
        exact mapSet_ne m sk k r hk
    | other nm => rfl

theorem foldl_loadStep_found (storage : Storage) :
    ∀ (m : RawMap) (k : String) (r : RawRecord),
      (StorageKey.pos k, some r) ∈ storage →
      (storage.map Prod.fst).Nodup →
      List.foldl loadStep m storage k = some r := by
  induction storage with
  | nil => intro m k r hmem _; exact absurd hmem (List.not_mem_nil _)
  | cons e es ih =>
    intro m k r hmem hnd
    rw [List.map_cons, List.nodup_cons] at hnd
    obtain ⟨h1, h2⟩ := hnd
    rw [List.foldl_cons]
    rcases List.mem_cons.mp hmem with heq | htail
    · rw [← heq] at h1 ⊢
      have h1b : StorageKey.pos k ∉ es.map Prod.fst := by simpa using h1
      have hcond : ∀ e2 ∈ es, e2.1 = StorageKey.pos k → e2.2 = none := by
        intro e2 he2 hke
        exfalso
        have hm : e2.1 ∈ es.map Prod.fst := List.mem_map_of_mem Prod.fst he2
        rw [hke] at hm
        exact h1b hm
      rw [foldl_loadStep_of_none es _ k hcond]
      exact mapSet_self m k r
    · exact ih (loadStep m e) k r htail h2

theorem foldl_loadStep_skipped (storage : Storage) :
    ∀ (m : RawMap) (k : String),
      (StorageKey.pos k, (none : Option RawRecord)) ∈ storage →
      (storage.map Prod.fst).Nodup →
      List.foldl loadStep m storage k = m k := by
  induction storage with
  | nil => intro m k hmem _; exact absurd hmem (List.not_mem_nil _)
  | cons e es ih =>
    intro m k hmem hnd
    rw [List.map_cons, List.nodup_cons] at hnd
    obtain ⟨h1, h2⟩ := hnd
    rw [List.foldl_cons]
    rcases List.mem_cons.mp hmem with heq | htail
    · rw [← heq] at h1 ⊢
      have h1b : StorageKey.pos k ∉ es.map Prod.fst := by simpa using h1
      have hcond : ∀ e2 ∈ es, e2.1 = StorageKey.pos k → e2.2 = none := by
        intro e2 he2 hke
        exfalso
        have hm : e2.1 ∈ es.map Prod.fst := List.mem_map_of_mem Prod.fst he2
        rw [hke] at hm
        exact h1b hm
      exact foldl_loadStep_of_none es _ k hcond
    · have hek : e.1 ≠ StorageKey.pos k := by
        intro he
        apply h1
        rw [he]
        exact List.mem_map_of_mem Prod.fst htail
      rw [ih (loadStep m e) k htail h2]
      rcases e with ⟨ek, ev⟩
      cases ek with
      | pos sk =>
        cases ev with
        | none => rfl
        | some r =>
          have hk : k ≠ sk := by
            intro hkk
            exact hek (by simp [hkk])
          exact mapSet_ne m sk k r hk
      | other nm => rfl

/-- C4: after store construction, a loaded record whose savedAt parses to a
    time strictly older than 30 days before now is absent from the store and
    deleted from the durable backing storage, and a record whose savedAt is
    within the 30-day window is present in both. -/
theorem retention_window (storage : Storage) (now : ℤ) (k : String)
    (r : RawRecord) (t : ℤ)
    (hmem : (StorageKey.pos k, some r) ∈ storage)
    (hnd : (storage.map Prod.fst).Nodup)
    (ht : r.savedAt = some t) :
    (t < now - thirtyDaysMs →
      (pmConstruct storage now).1 k = none ∧
      (StorageKey.pos k, some r) ∉ (pmConstruct storage now).2) ∧
    (now - thirtyDaysMs ≤ t →
      (pmConstruct storage now).1 k = some r ∧
      (StorageKey.pos k, some r) ∈ (pmConstruct storage now).2) := by
  have hload : loadFromStorage storage k = some r :=
    foldl_loadStep_found storage _ k r hmem hnd
  constructor
  · intro hlt
    have hstale : staleB now r = true := by
      simp only [staleB, ht]
      exact decide_eq_true hlt
    constructor
    · show cleanupMap (loadFromStorage storage) now k = none
      simp [cleanupMap, hload, hstale]
    · show (StorageKey.pos k, some r) ∉
        storage.filter (keepEntry (loadFromStorage storage) now)
      intro hmem2
      have hkeep := (List.mem_filter.mp hmem2).2
      simp [keepEntry, hload, hstale] at hkeep
  · intro hge
    have hstale : staleB now r = false := by
      simp only [staleB, ht]
      exact decide_eq_false (not_lt.mpr hge)
    constructor
    · show cleanupMap (loadFromStorage storage) now k = some r
      simp [cleanupMap, hload, hstale]
    · show (StorageKey.pos k, some r) ∈
        storage.filter (keepEntry (loadFromStorage storage) now)
      refine List.mem_filter.mpr ⟨hmem, ?_⟩
      simp [keepEntry, hload, hstale]

/-- Witness for C4 at now = 0: a record saved 31 days earlier is evicted
    from the map and the backing storage, one saved 29 days earlier is kept
    in both. -/
theorem retention_window_witness :
    ((StorageKey.pos "A", some recA) ∈ storW ∧
     (storW.map Prod.fst).Nodup ∧
     recA.savedAt = some (-2678400000) ∧
     (-2678400000 : ℤ) < 0 - thirtyDaysMs ∧
     recB.savedAt = some (-2505600000) ∧
     0 - thirtyDaysMs ≤ (-2505600000 : ℤ)) ∧
    (pmConstruct storW 0).1 "A" = none ∧
    (StorageKey.pos "A", some recA) ∉ (pmConstruct storW 0).2 ∧
    (pmConstruct storW 0).1 "B" = some recB ∧
    (StorageKey.pos "B", some recB) ∈ (pmConstruct storW 0).2 := by
  have hnd : (storW.map Prod.fst).Nodup := by
    simp [storW]
  have hmemA : (StorageKey.pos "A", some recA) ∈ storW := by
    simp [storW]
  have hmemB : (StorageKey.pos "B", some recB) ∈ storW := by
    simp [storW]
  have hlt : (-2678400000 : ℤ) < 0 - thirtyDaysMs := by
    norm_num [thirtyDaysMs]
  have hge : 0 - thirtyDaysMs ≤ (-2505600000 : ℤ) := by
    norm_num [thirtyDaysMs]
  have hA := retention_window storW 0 "A" recA (-2678400000) hmemA hnd rfl
  have hB := retention_window storW 0 "B" recB (-2505600000) hmemB hnd rfl
  exact ⟨⟨hmemA, hnd, rfl, hlt, rfl, hge⟩,
    (hA.1 hlt).1, (hA.1 hlt).2, (hB.2 hge).1, (hB.2 hge).2⟩

/-- C5 counterexample: a parseable value that conforms to nothing (every
    schema field missing) is NOT dropped by store construction: it is loaded
    into the positions map as is, contradicting the claim that non-conforming
    parseable entries are dropped. -/
theorem load_keeps_nonconforming :
    (pmConstruct storBad 0).1 "A" = some badRec ∧ badRec.x = none := by
  constructor
  · have hload : loadFromStorage storBad "A" = some badRec := by
      simp [loadFromStorage, storBad, loadStep, mapSet_self]
    show cleanupMap (loadFromStorage storBad) 0 "A" = some badRec
    simp [cleanupMap, hload, staleB, badRec]
  · rfl

/-- C5 amended: load-time validation is JSON-parse only: an entry under the
    position namespace whose value fails to parse is dropped silently, and
    every entry whose value parses is loaded regardless of schema
    conformance; loading is total (never raises) and one bad entry never
    prevents the remaining entries from loading. -/
theorem load_validation (storage : Storage) (k : String)
    (hnd : (storage.map Prod.fst).Nodup) :
    ((StorageKey.pos k, (none : Option RawRecord)) ∈ storage →
      loadFromStorage storage k = none) ∧
    (∀ r : RawRecord, (StorageKey.pos k, some r) ∈ storage →
      loadFromStorage storage k = some r) := by
  constructor
  · intro hmem
    exact foldl_loadStep_skipped storage _ k hmem hnd
  · intro r hmem
    exact foldl_loadStep_found storage _ k r hmem hnd

/-- Witness for C5 amended: one unparseable entry is dropped while the
    parseable entry beside it still loads. -/
theorem load_validation_witness :
    (storLoad.map Prod.fst).Nodup ∧
    loadFromStorage storLoad "C" = none ∧
    loadFromStorage storLoad "D" = some recD := by
  have hnd : (storLoad.map Prod.fst).Nodup := by
    simp [storLoad]
  exact ⟨hnd,
    (load_validation storLoad "C" hnd).1 (by simp [storLoad]),
    (load_validation storLoad "D" hnd).2 recD (by simp [storLoad])⟩

/- ============================================
   C8: removal semantics
   ============================================ -/

/-- C8 counterexample: start from an overlay showing the "M:S" marker; its
    session is reported gone (removeSource) and an event for the same key
    arrives during the 1 s removal window.  The event changes nothing (the
    removal-pending marker makes createSource return early, so no brand-new
    marker is created), and when the scheduled removal fires the key has no
    marker at all — contradicting the claim that a session reappearing with
    that key gets a brand-new marker resolved from the store. -/
theorem removal_ignores_reappearance :
    SourceOverlay.createSource (SourceOverlay.removeSource o8 "M:S" 0) sessW =
      SourceOverlay.removeSource o8 "M:S" 0 ∧
    (SourceOverlay.fireRemoval
        (SourceOverlay.createSource
          (SourceOverlay.removeSource o8 "M:S" 0) sessW)
        "M:S").sources "M:S" = none := by
  have hsrc8 : o8.sources "M:S" = some srcW := rfl
  have hrem : (SourceOverlay.removeSource o8 "M:S" 0).sources "M:S" =
      some { srcW with removing := true } := by
    simp only [SourceOverlay.removeSource, hsrc8]
    exact mapSet_self _ _ _
  have hkey : mkKey sessW = "M:S" := rfl
  have hcre : SourceOverlay.createSource
      (SourceOverlay.removeSource o8 "M:S" 0) sessW =
      SourceOverlay.removeSource o8 "M:S" 0 := by
    simp only [SourceOverlay.createSource, hkey, hrem]
  refine ⟨hcre, ?_⟩
  rw [hcre]
  simp [SourceOverlay.fireRemoval, mapDel]

/-- C8 amended: a removal in progress is never cancelled: an event for a key
    whose marker still exists (including one fading out) leaves the whole
    overlay state unchanged, removeSource schedules the detach 1000 ms ahead
    and keeps the marker until then, and the scheduled callback detaches the
    marker and destroys its audio voice unconditionally.  An event arriving
    after the removal completed (key absent) creates a brand-new marker whose
    position is re-resolved from the position store, honoring a saved
    position. -/
theorem removal_semantics (o : SourceOverlay) (s : Session) (src : SrcData)
    (rec : PositionManager.PosRecord) (now : ℤ) :
    (o.sources (mkKey s) = some src →
      SourceOverlay.createSource o s = o ∧
      (SourceOverlay.removeSource o (mkKey s) now).sources (mkKey s) =
        some { src with removing := true } ∧
      (SourceOverlay.removeSource o (mkKey s) now).pendingRemovals =
        o.pendingRemovals ++ [(mkKey s, now + 1000)]) ∧
    ((SourceOverlay.fireRemoval o (mkKey s)).sources (mkKey s) = none ∧
     (SourceOverlay.fireRemoval o (mkKey s)).engine.sessionPanners
        (mkKey s) = none) ∧
    (o.sources (mkKey s) = none → o.pm (mkKey s) = some rec →
      (SourceOverlay.createSource o s).sources (mkKey s) =
        some ⟨⟨rec.x, rec.y⟩, false, s⟩) := by
  refine ⟨?_, ⟨?_, ?_⟩, ?_⟩
  · intro h
    refine ⟨?_, ?_, ?_⟩
    · simp only [SourceOverlay.createSource, h]
    · simp only [SourceOverlay.removeSource, h]
      exact mapSet_self _ _ _
    · simp only [SourceOverlay.removeSource, h]
  · simp [SourceOverlay.fireRemoval, mapDel]
  · show (AudioEngine.removePannerForSession o.engine (mkKey s)).sessionPanners
        (mkKey s) = none
    cases hp : o.engine.sessionPanners (mkKey s) with
    | none => simp [AudioEngine.removePannerForSession, hp]
    | some p => simp [AudioEngine.removePannerForSession, hp, mapDel]
  · intro h hrec
    simp only [SourceOverlay.createSource, h, PositionManager.getPosition,
      PositionManager.getPositionS, hrec]
    exact mapSet_self _ _ _

/-- Witness for C8 amended: an overlay showing the marker ignores a repeat
    event, and an overlay with the key absent but a saved (0.2, 0.2) record
    creates a fresh marker at the saved position. -/
theorem removal_semantics_witness :
    o8.sources (mkKey sessW) = some srcW ∧
    SourceOverlay.createSource o8 sessW = o8 ∧
    o8b.sources (mkKey sessW) = none ∧
    o8b.pm (mkKey sessW) = some ⟨0.2, 0.2, 50⟩ ∧
    (SourceOverlay.createSource o8b sessW).sources (mkKey sessW) =
      some ⟨⟨0.2, 0.2⟩, false, sessW⟩ := by
  have h1 : o8.sources (mkKey sessW) = some srcW := rfl
  have h2 : o8b.sources (mkKey sessW) = none := rfl
  have h3 : o8b.pm (mkKey sessW) = some ⟨0.2, 0.2, 50⟩ := rfl
  exact ⟨h1, ((removal_semantics o8 sessW srcW ⟨0.2, 0.2, 50⟩ 0).1 h1).1,
    h2, h3,
    (removal_semantics o8b sessW srcW ⟨0.2, 0.2, 50⟩ 0).2.2 h2 h3⟩

end BingBong
